import Mathlib

/-!
Shallow embedding of the ec-cli core: the bundle tracker
(internal/tracker/tracker.go) and the application snapshot image verifier
(internal/evaluation_target/application_snapshot_image).  Pure functions are
translated directly; Go `time.Time` values are modelled as `Int` absolute
nanosecond timestamps (Go compares times by this instant, and all times in
play lie after the zero time, so the timestamp is non-negative).
-/

/-- From tracker.go: `pipelineCollection = "pipeline-bundles"`. -/
def pipelineCollection : String := "pipeline-bundles"

/-- From tracker.go: `taskCollection = "task-bundles"`. -/
def taskCollection : String := "task-bundles"

/-- From tracker.go: `bundleRecord` — digest, effective_on (an integer
nanosecond timestamp), tag, plus the non-persisted repository and
collection fields. -/
structure BundleRecord where
  digest : String
  effectiveOn : Int
  tag : String
  repository : String
  collection : String
  deriving DecidableEq, Repr

/-- The first loop of `filterRecords` in tracker.go.  It walks the
(newest-first) list from the tail (index `last_index`, the oldest record)
toward the head; a record `r = records[i]` with `i < last_index` is skipped
when `previous := records[i+1]` (its immediate older neighbour) has the
same digest, and every kept record is prepended to the accumulator, so the
output preserves the original order.  Structurally: the last record is
always kept, and any other record is kept iff its digest differs from the
digest of the next (older) record. -/
def uniquePass : List BundleRecord → List BundleRecord
  | [] => []
  | [r] => [r]
  | r :: previous :: rest =>
    if previous.digest = r.digest then uniquePass (previous :: rest)
    else r :: uniquePass (previous :: rest)

/-- The second loop of `filterRecords` in tracker.go: append records in
order; after appending `r`, stop when `prune && now.After(r.EffectiveOn)`,
i.e. when `prune` is set and `r.effectiveOn` is strictly before `now`. -/
def relevantPass (now : Int) (prune : Bool) : List BundleRecord → List BundleRecord
  | [] => []
  | r :: rest =>
    if prune ∧ r.effectiveOn < now then [r]
    else r :: relevantPass now prune rest

/-- `filterRecords` from tracker.go: the dedup pass (`unique`) followed by
the prune pass (`relevant`).  `now` stands for the `time.Now().UTC()`
captured at the top of the function. -/
def filterRecords (now : Int) (records : List BundleRecord) (prune : Bool) : List BundleRecord :=
  relevantPass now prune (uniquePass records)

/-- Nanoseconds in `time.Hour * 24`. -/
def nsPerDay : Int := 86400000000000

/-- Go `time.Time.Round(d)` for a non-negative absolute timestamp `t` and a
positive duration `d`: round to the nearest multiple of `d`, with halves
rounded up (Go rounds half away from zero, and `t ≥ 0` here). -/
def timeRound (t d : Int) : Int :=
  if t % d + t % d < d then t - t % d else t + (d - t % d)

/-- `effectiveOn` from tracker.go:
`time.Now().Add(24h * 30).UTC().Round(24h)`, with `now` the current
timestamp.  `.UTC()` does not change the instant, so it is the identity in
this model. -/
def effectiveOn (now : Int) : Int :=
  timeRound (now + 30 * nsPerDay) nsPerDay

/-- From tracker.go: `Tracker` — two mappings keyed by repository.  The Go
maps are modelled as association lists; logical equality of two maps is
permutation of duplicate-free association lists. -/
structure Tracker where
  pipelineBundles : List (String × List BundleRecord)
  taskBundles : List (String × List BundleRecord)
  deriving DecidableEq, Repr

/-- The body of `addBundleRecord` acting on one collection map: if the
repository key is absent, bind it to the one-element list `[record]`;
otherwise prepend `record` to the existing list for that key. -/
def updateCollection (collection : List (String × List BundleRecord)) (record : BundleRecord) :
    List (String × List BundleRecord) :=
  match collection.lookup record.repository with
  | none => collection ++ [(record.repository, [record])]
  | some _ =>
    collection.map fun kv =>
      if kv.1 = record.repository then (kv.1, record :: kv.2) else kv

/-- `addBundleRecord` from tracker.go: dispatch on `record.Collection`;
records whose collection is neither `pipeline-bundles` nor `task-bundles`
are ignored (the function logs a warning and returns). -/
def Tracker.addBundleRecord (t : Tracker) (record : BundleRecord) : Tracker :=
  if record.collection = pipelineCollection then
    { t with pipelineBundles := updateCollection t.pipelineBundles record }
  else if record.collection = taskCollection then
    { t with taskBundles := updateCollection t.taskBundles record }
  else t

/-- Key order used by the deterministic YAML formatter: compare map keys
(repositories) lexicographically. -/
def keyLE (a b : String × List BundleRecord) : Prop := a.1 ≤ b.1

instance : DecidableRel keyLE :=
  fun a b => inferInstanceAs (Decidable (a.1 ≤ b.1))

instance : IsTotal (String × List BundleRecord) keyLE :=
  ⟨fun a b => le_total a.1 b.1⟩

instance : IsTrans (String × List BundleRecord) keyLE :=
  ⟨fun _ _ _ h h' => le_trans h h'⟩

/-- Strict key order on collection entries. -/
def keyLT (a b : String × List BundleRecord) : Prop := a.1 < b.1

instance : IsAntisymm (String × List BundleRecord) keyLT :=
  ⟨fun _ _ h h' => absurd (lt_trans h h') (lt_irrefl _)⟩

/-- One record in the YAML output (§6 of the spec): digest, effective_on,
tag.  The timestamp is rendered through `toString`; only byte-determinism
of the rendering matters for the properties proved here. -/
def recordYaml (r : BundleRecord) : String :=
  "  - digest: " ++ r.digest ++ "\n    effective_on: " ++ toString r.effectiveOn
    ++ "\n    tag: " ++ r.tag ++ "\n"

/-- Modelled from the spec: the serialization of one collection map, as
produced by `yaml.Marshal` followed by `yamlfmt.Format` (external
libraries, not part of this repository's source): repositories are emitted
in sorted (lexicographic) key order, each followed by its records in list
order (newest first). -/
def collectionYaml (m : List (String × List BundleRecord)) : String :=
  (List.insertionSort keyLE m).foldr
    (fun kv acc => kv.1 ++ ":\n" ++ String.join (kv.2.map recordYaml) ++ acc) ""

/-- `Tracker.Output` from tracker.go: serialize the tracker as YAML and
canonicalize it via the deterministic formatter (`yamlfmt.Format` sorts
the document), yielding the two collections with sorted repository keys. -/
def Tracker.Output (t : Tracker) : String :=
  "pipeline-bundles:\n" ++ collectionYaml t.pipelineBundles
    ++ "task-bundles:\n" ++ collectionYaml t.taskBundles

/-- The dedup pass as claimed by the spec (for comparison with
`uniquePass`): iterate from oldest to newest and drop any record whose
digest equals the digest of its immediate *newer* neighbour in the input
list, collapsing each run of adjacent equal digests to its *newest*
member.  The head (newest record) has no newer neighbour and is always
kept; the auxiliary function carries the input predecessor. -/
def uniquePassSpecNewestAux (prev : BundleRecord) : List BundleRecord → List BundleRecord
  | [] => []
  | r :: rest =>
    if r.digest = prev.digest then uniquePassSpecNewestAux r rest
    else r :: uniquePassSpecNewestAux r rest

/-- See `uniquePassSpecNewestAux`. -/
def uniquePassSpecNewest : List BundleRecord → List BundleRecord
  | [] => []
  | r :: rest => r :: uniquePassSpecNewestAux r rest

/-- Positional description of the amended dedup pass: the record at index
`i` survives iff it has no immediate older neighbour (index `i + 1`) with
the same digest. -/
def keptAt (l : List BundleRecord) (i : Nat) : Option BundleRecord :=
  match l[i]? with
  | none => none
  | some r =>
    match l[i + 1]? with
    | none => some r
    | some next => if next.digest = r.digest then none else some r

/-- The survivors of the amended dedup pass, collected by index. -/
def uniquePassSpecOldest (l : List BundleRecord) : List BundleRecord :=
  (List.range l.length).filterMap (keptAt l)

/-- `effective_on` as claimed by the spec (for comparison with
`effectiveOn`): current time plus 30 days rounded *down* to midnight. -/
def effectiveOnSpecRoundDown (now : Int) : Int :=
  let t := now + 30 * nsPerDay
  t - t % nsPerDay

/-- Modelled from the spec (§4.3): the SimpleSigning payload carried by an
image signature, as far as the image claim verifier inspects it — the
`critical.image.docker-manifest-digest` string and the `optional`
annotation map (modelled as an association list, as Go maps have no
duplicate keys).  The implementation file
application_snapshot_image.go is not under src/; only its tests are. -/
structure SimpleContainerImage where
  dockerManifestDigest : String
  optionalAnns : List (String × String)
  deriving DecidableEq, Repr

/-- Modelled from the spec (§4.3, image claim verifier): accept iff
(a) the payload digest string-equals the expected digest in full
`algo:hex` form and (b) every expected annotation appears, with an equal
value, in the payload's `optional` map; a digest mismatch fails with
`invalid or missing digest in claim: <claimed digest>` and an absent or
unequal annotation fails with `missing or incorrect annotation`.
`none` is acceptance; `some msg` is rejection with error message `msg`. -/
def imageClaimVerifier (p : SimpleContainerImage) (algo hex : String)
    (annotations : List (String × String)) : Option String :=
  if p.dockerManifestDigest ≠ algo ++ ":" ++ hex then
    some ("invalid or missing digest in claim: " ++ p.dockerManifestDigest)
  else if annotations.all fun kv => p.optionalAnns.lookup kv.1 = some kv.2 then
    none
  else
    some "missing or incorrect annotation"

/-- Modelled from the spec (glossary / §4.3): one subject entry of an
in-toto statement — its digest map, an association list of
(algorithm, hex) pairs. -/
structure InTotoSubject where
  digestMap : List (String × String)
  deriving DecidableEq, Repr

/-- Modelled from the spec (§4.3): the in-toto statement carried
base64-encoded inside the DSSE envelope, as far as the attestation claim
verifier inspects it — its subject array.  A zero-valued statement has an
empty subject array. -/
structure InTotoStatement where
  subject : List InTotoSubject
  deriving DecidableEq, Repr

/-- Modelled from the spec (§4.3, attestation claim verifier): after
decoding the DSSE envelope and base64-decoding the statement, accept iff
some subject's digest map holds the expected algorithm with exactly the
expected (case-sensitive) hex; otherwise fail with
`no matching subject digest found`. -/
def attestationClaimVerifier (st : InTotoStatement) (algo hex : String) : Option String :=
  if st.subject.any fun s => s.digestMap.lookup algo = some hex then none
  else some "no matching subject digest found"

/-- Modelled from the spec (§4.4): the part of an attestation that syntax
validation inspects.  `emptyStatement` stands for a zero-valued envelope
(empty statement bytes); `slsa02` stands for a SLSA v0.2 provenance
statement carrying the given `/predicate/builder/id` value. -/
inductive AttestationStatement where
  | emptyStatement : AttestationStatement
  | slsa02 (builderId : String) : AttestationStatement
  deriving DecidableEq, Repr

/-- The result of syntax-validating one attestation: success, an `EV002`
decode failure with its cause, or an `EV003` schema violation carrying the
JSON pointer and message. -/
inductive SyntaxCheck where
  | ok : SyntaxCheck
  | ev002 (msg cause : String) : SyntaxCheck
  | ev003 (pointer msg : String) : SyntaxCheck
  deriving DecidableEq, Repr

/-- Whether a list of characters contains a colon. -/
def containsColon : List Char → Bool
  | [] => false
  | c :: rest => c = ':' || containsColon rest

/-- Modelled from the spec (§4.4, scenario 7): the URI check applied to
`/predicate/builder/id` — the value must start with a scheme, i.e. a
non-empty scheme segment followed by a colon. -/
def hasUriScheme (s : String) : Bool :=
  match s.toList with
  | [] => false
  | c :: rest => ¬(c = ':') && containsColon rest

/-- Modelled from the spec (§4.4): syntax validation of one attestation.
A zero-valued envelope fails to decode (`EV002`, caused by
`unexpected end of JSON input`); a SLSA v0.2 statement is validated
against the embedded schema, whose only constraint modelled here is the
URI syntax of `/predicate/builder/id` (`EV003` on violation). -/
def validateOne : AttestationStatement → SyntaxCheck
  | .emptyStatement =>
    .ev002 "Unable to decode attestation data" "unexpected end of JSON input"
  | .slsa02 builderId =>
    if hasUriScheme builderId then .ok
    else .ev003 "/predicate/builder/id" "invalid uri: uri missing scheme prefix"

/-- The overall result of `ValidateAttestationSyntax`: the precondition
failure when no attestations were collected, or the union of per-
attestation failures. -/
inductive SyntaxError where
  | noAttestationData (msg : String) : SyntaxError
  | failures (fs : List SyntaxCheck) : SyntaxError
  deriving DecidableEq, Repr

/-- Modelled from the spec (§4.5, §4.4): `ValidateAttestationSyntax`.
With no attestations collected it refuses with `no attestation data` (a
precondition failure).  Otherwise it validates *every* attestation
without short-circuiting, collects the failures, and fails iff at least
one attestation failed.  `none` is success. -/
def validateAttestations (atts : List AttestationStatement) : Option SyntaxError :=
  if atts.isEmpty then some (.noAttestationData "no attestation data")
  else
    let fs := (atts.map validateOne).filter fun c => c ≠ .ok
    if fs.isEmpty then none else some (.failures fs)

section ScratchChecks

example :
    uniquePass
      [⟨"d", 10, "t1", "", ""⟩, ⟨"d", 5, "t2", "", ""⟩] =
      [⟨"d", 5, "t2", "", ""⟩] := by decide

example :
    filterRecords 100
      [⟨"a", 100, "", "", ""⟩, ⟨"b", 50, "", "", ""⟩] true =
      [⟨"a", 100, "", "", ""⟩, ⟨"b", 50, "", "", ""⟩] := by decide

example : effectiveOn (13 * 3600 * 1000000000) = 31 * nsPerDay := by decide

example : effectiveOn (11 * 3600 * 1000000000) = 30 * nsPerDay := by decide

example :
    imageClaimVerifier ⟨"sha256:ffbaddD11", []⟩ "sha256" "dabbad00" [] =
      some "invalid or missing digest in claim: sha256:ffbaddD11" := by decide

example :
    imageClaimVerifier ⟨"sha256:dabbad00", [("a", "y")]⟩ "sha256" "dabbad00" [("a", "x")] =
      some "missing or incorrect annotation" := by decide

example :
    imageClaimVerifier ⟨"sha256:dabbad00", [("a", "x"), ("b", "y")]⟩ "sha256" "dabbad00"
      [("a", "x"), ("b", "y")] = none := by decide

example :
    attestationClaimVerifier ⟨[⟨[("sha512", "dead10cc"), ("sha256", "dabbad00")]⟩]⟩
      "sha256" "dabbad00" = none := by decide

example :
    attestationClaimVerifier ⟨[⟨[("sha256", "dead10cc")]⟩]⟩ "sha256" "dabbad00" =
      some "no matching subject digest found" := by decide

example :
    attestationClaimVerifier ⟨[]⟩ "sha256" "dabbad00" =
      some "no matching subject digest found" := by decide

example : validateOne (.slsa02 "scheme:uri") = .ok := by decide

example :
    validateOne (.slsa02 "invalid") =
      .ev003 "/predicate/builder/id" "invalid uri: uri missing scheme prefix" := by decide

example :
    validateAttestations [.slsa02 "scheme:uri", .slsa02 "invalid"] =
      some (.failures
        [.ev003 "/predicate/builder/id" "invalid uri: uri missing scheme prefix"]) := by decide

example :
    validateAttestations [] = some (.noAttestationData "no attestation data") := by decide

example : uniquePassSpecNewest
    [⟨"d", 10, "t1", "", ""⟩, ⟨"d", 5, "t2", "", ""⟩] =
    [⟨"d", 10, "t1", "", ""⟩] := by decide

example : uniquePassSpecOldest
    [⟨"d", 10, "t1", "", ""⟩, ⟨"d", 5, "t2", "", ""⟩] =
    [⟨"d", 5, "t2", "", ""⟩] := by decide

end ScratchChecks

/-- C10: for every Tracker state and every bundleRecord whose Collection
field is neither `pipeline-bundles` nor `task-bundles`, `addBundleRecord`
leaves the Tracker completely unchanged — the record is silently ignored
(the Go method only logs a warning and returns; it cannot raise an
error). -/
theorem addBundleRecord_ignores_unknown_collection (t : Tracker) (r : BundleRecord)
    (h1 : r.collection ≠ pipelineCollection) (h2 : r.collection ≠ taskCollection) :
    t.addBundleRecord r = t := by
  simp [Tracker.addBundleRecord, h1, h2]

/-- Witness for C10 at a concrete tracker and record. -/
theorem addBundleRecord_ignores_unknown_collection_witness :
    (⟨"d", 1, "t", "repo", "acceptable-bundles"⟩ : BundleRecord).collection ≠ pipelineCollection
    ∧ (⟨"d", 1, "t", "repo", "acceptable-bundles"⟩ : BundleRecord).collection ≠ taskCollection
    ∧ Tracker.addBundleRecord
        ⟨[("repo", [⟨"x", 0, "v", "", ""⟩])], [("other", [])]⟩
        ⟨"d", 1, "t", "repo", "acceptable-bundles"⟩
      = ⟨[("repo", [⟨"x", 0, "v", "", ""⟩])], [("other", [])]⟩ :=
  ⟨by decide, by decide,
    addBundleRecord_ignores_unknown_collection
      ⟨[("repo", [⟨"x", 0, "v", "", ""⟩])], [("other", [])]⟩
      ⟨"d", 1, "t", "repo", "acceptable-bundles"⟩ (by decide) (by decide)⟩

/-- C8: `ValidateAttestationSyntax` on an image with no collected
attestations always returns the precondition error whose message begins
with (here: equals) `no attestation data` — never a success and never an
EV-coded verification failure. -/
theorem validateAttestations_no_data :
    validateAttestations [] = some (.noAttestationData "no attestation data") := rfl

/-- C5: the image claim verifier accepts iff the payload digest equals the
expected digest in full `algo:hex` form and every expected annotation
appears with an equal value in the payload's optional map; a digest
mismatch yields `invalid or missing digest in claim: <claimed digest>`,
and (with a matching digest) a missing or unequal annotation yields
`missing or incorrect annotation`. -/
theorem imageClaimVerifier_spec (p : SimpleContainerImage) (algo hex : String)
    (anns : List (String × String)) :
    (imageClaimVerifier p algo hex anns = none ↔
      p.dockerManifestDigest = algo ++ ":" ++ hex ∧
        ∀ kv ∈ anns, p.optionalAnns.lookup kv.1 = some kv.2)
    ∧ (p.dockerManifestDigest ≠ algo ++ ":" ++ hex →
        imageClaimVerifier p algo hex anns =
          some ("invalid or missing digest in claim: " ++ p.dockerManifestDigest))
    ∧ (p.dockerManifestDigest = algo ++ ":" ++ hex →
        (∃ kv ∈ anns, p.optionalAnns.lookup kv.1 ≠ some kv.2) →
        imageClaimVerifier p algo hex anns = some "missing or incorrect annotation") := by
  by_cases hd : p.dockerManifestDigest = algo ++ ":" ++ hex
  · by_cases ha : anns.all fun kv => p.optionalAnns.lookup kv.1 = some kv.2
    · simp_all [imageClaimVerifier, List.all_eq_true]
    · simp_all [imageClaimVerifier, List.all_eq_true]
  · simp_all [imageClaimVerifier]

/-- Witness for C5: the verifier accepts the matching payload from the
test's happy-day-with-annotations case. -/
theorem imageClaimVerifier_spec_witness :
    imageClaimVerifier ⟨"sha256:dabbad00", [("a", "x"), ("b", "y")]⟩ "sha256" "dabbad00"
      [("a", "x"), ("b", "y")] = none :=
  (imageClaimVerifier_spec ⟨"sha256:dabbad00", [("a", "x"), ("b", "y")]⟩ "sha256" "dabbad00"
    [("a", "x"), ("b", "y")]).1.mpr (by decide)

/-- C6: the attestation claim verifier accepts iff the decoded statement's
subject array contains an entry whose digest map holds the expected
algorithm with exactly the expected hex; otherwise — including for an
empty subject array (a zero-valued statement) — it returns
`no matching subject digest found`. -/
theorem attestationClaimVerifier_spec (st : InTotoStatement) (algo hex : String) :
    (attestationClaimVerifier st algo hex = none ↔
      ∃ s ∈ st.subject, s.digestMap.lookup algo = some hex)
    ∧ ((¬ ∃ s ∈ st.subject, s.digestMap.lookup algo = some hex) →
        attestationClaimVerifier st algo hex = some "no matching subject digest found")
    ∧ attestationClaimVerifier ⟨[]⟩ algo hex = some "no matching subject digest found" := by
  by_cases h : st.subject.any fun s => s.digestMap.lookup algo = some hex
  · simp_all [attestationClaimVerifier, List.any_eq_true]
  · simp_all [attestationClaimVerifier, List.any_eq_true]

/-- Witness for C6: the multiple-digest happy-day case from the test. -/
theorem attestationClaimVerifier_spec_witness :
    attestationClaimVerifier ⟨[⟨[("sha512", "dead10cc"), ("sha256", "dabbad00")]⟩]⟩
      "sha256" "dabbad00" = none :=
  (attestationClaimVerifier_spec ⟨[⟨[("sha512", "dead10cc"), ("sha256", "dabbad00")]⟩]⟩
    "sha256" "dabbad00").1.mpr (by decide)

/-- C7: with at least one attestation collected, syntax validation checks
every attestation (the failure list is exactly the list of non-ok results
over *all* attestations, so it never short-circuits), succeeds iff all
pass, flags a zero-valued statement as `EV002` caused by
`unexpected end of JSON input`, flags a non-URI `/predicate/builder/id` as
`EV003` with that JSON pointer, and fails on a mix of one valid and one
invalid attestation with `EV003`. -/
theorem validateAttestations_spec (atts : List AttestationStatement) (h : atts ≠ []) :
    (validateAttestations atts = none ↔ ∀ a ∈ atts, validateOne a = .ok)
    ∧ (∀ fs, validateAttestations atts = some (.failures fs) →
        fs = (atts.map validateOne).filter fun c => c ≠ .ok)
    ∧ validateOne .emptyStatement =
        .ev002 "Unable to decode attestation data" "unexpected end of JSON input"
    ∧ validateOne (.slsa02 "invalid") =
        .ev003 "/predicate/builder/id" "invalid uri: uri missing scheme prefix"
    ∧ validateAttestations [.slsa02 "scheme:uri", .slsa02 "invalid"] =
        some (.failures
          [.ev003 "/predicate/builder/id" "invalid uri: uri missing scheme prefix"]) := by
  have hne : atts.isEmpty = false := by
    cases atts with
    | nil => exact absurd rfl h
    | cons a rest => rfl
  have hval : validateAttestations atts
      = if ((atts.map validateOne).filter fun c => c ≠ .ok).isEmpty then none
        else some (.failures ((atts.map validateOne).filter fun c => c ≠ .ok)) := by
    simp [validateAttestations, hne]
  refine ⟨?_, ?_, rfl, by decide, by decide⟩
  · constructor
    · intro hnone a ha
      by_contra hna
      by_cases hf : ((atts.map validateOne).filter fun c => c ≠ .ok).isEmpty
      · have hmem : validateOne a ∈ (atts.map validateOne).filter fun c => c ≠ .ok :=
          List.mem_filter.mpr ⟨List.mem_map_of_mem _ ha, by simpa using hna⟩
        rw [List.isEmpty_iff] at hf
        rw [hf] at hmem
        exact absurd hmem (List.not_mem_nil _)
      · rw [hval, if_neg hf] at hnone
        exact absurd hnone (by simp)
    · intro hall
      have hnil : (atts.map validateOne).filter (fun c => c ≠ .ok) = [] := by
        refine List.filter_eq_nil_iff.mpr ?_
        intro c hc
        obtain ⟨a, ha, rfl⟩ := List.mem_map.mp hc
        simp [hall a ha]
      rw [hval, if_pos (by rw [hnil]; rfl)]
  · intro fs hfs
    by_cases hf : ((atts.map validateOne).filter fun c => c ≠ .ok).isEmpty
    · rw [hval, if_pos hf] at hfs
      exact absurd hfs (by simp)
    · rw [hval, if_neg hf] at hfs
      exact (SyntaxError.failures.inj (Option.some.inj hfs)).symm

/-- Witness for C7 at the two-attestation mix from the test. -/
theorem validateAttestations_spec_witness :
    ([AttestationStatement.slsa02 "scheme:uri", .slsa02 "invalid"] ≠
        ([] : List AttestationStatement))
    ∧ (validateAttestations [.slsa02 "scheme:uri", .slsa02 "invalid"] = none ↔
        ∀ a ∈ [AttestationStatement.slsa02 "scheme:uri", .slsa02 "invalid"],
          validateOne a = .ok) :=
  ⟨by decide,
    (validateAttestations_spec [.slsa02 "scheme:uri", .slsa02 "invalid"] (by decide)).1⟩

/-- Shifting the survivor test by one position strips the head record. -/
theorem keptAt_succ (x : BundleRecord) (xs : List BundleRecord) (i : Nat) :
    keptAt (x :: xs) (i + 1) = keptAt xs i := by
  simp [keptAt, List.getElem?_cons_succ]

/-- Helper: `uniquePassSpecOldest` written over an explicit index list. -/
theorem uniquePassSpecOldest_range (l : List BundleRecord) :
    uniquePassSpecOldest l = (List.range l.length).filterMap (keptAt l) := rfl

/-- C2 (amended): the dedup pass of `filterRecords` drops exactly those
records whose digest equals the digest of their immediate *older*
neighbour (the record at the next larger index of the newest-first list),
so each run of adjacent records sharing a digest is collapsed to its
*oldest* member: the survivors are precisely the records at positions `i`
such that position `i + 1` is absent or carries a different digest. -/
theorem uniquePass_eq_uniquePassSpecOldest (l : List BundleRecord) :
    uniquePass l = uniquePassSpecOldest l := by
  induction l with
  | nil => rfl
  | cons r rest ih =>
    cases rest with
    | nil => rfl
    | cons previous rest' =>
      have hshift : keptAt (r :: previous :: rest') ∘ Nat.succ = keptAt (previous :: rest') :=
        funext fun i => keptAt_succ r (previous :: rest') i
      have hspec : uniquePassSpecOldest (previous :: rest')
          = List.filterMap (keptAt (previous :: rest')) (List.range (rest'.length + 1)) := by
        simp [uniquePassSpecOldest_range]
      have hsplit : uniquePassSpecOldest (r :: previous :: rest')
          = List.filterMap (keptAt (r :: previous :: rest'))
              (0 :: (List.range (rest'.length + 1)).map Nat.succ) := by
        rw [uniquePassSpecOldest_range]
        simp [List.range_succ_eq_map]
      rw [hsplit, List.filterMap_cons, List.filterMap_map, hshift, ← hspec, ← ih]
      by_cases hd : previous.digest = r.digest
      · have h0 : keptAt (r :: previous :: rest') 0 = none := by
          simp [keptAt, hd]
        rw [h0]
        simp [uniquePass, hd]
      · have h0 : keptAt (r :: previous :: rest') 0 = some r := by
          simp [keptAt, hd]
        rw [h0]
        simp [uniquePass, hd]

/-- C2 counterexample: two adjacent records share a digest; the pass keeps
the *older* record (tag `old`), while the claim — drop a record when its
digest equals its immediate *newer* neighbour's, collapsing to the
*newest* member — predicts keeping the newer record (tag `new`). -/
theorem uniquePass_keeps_oldest_counterexample :
    uniquePass [⟨"d", 10, "new", "", ""⟩, ⟨"d", 5, "old", "", ""⟩]
        = [⟨"d", 5, "old", "", ""⟩]
    ∧ uniquePassSpecNewest [⟨"d", 10, "new", "", ""⟩, ⟨"d", 5, "old", "", ""⟩]
        = [⟨"d", 10, "new", "", ""⟩]
    ∧ ([⟨"d", 5, "old", "", ""⟩] : List BundleRecord) ≠ [⟨"d", 10, "new", "", ""⟩] := by
  decide

/-- With `prune = false` the second pass keeps every record. -/
theorem relevantPass_false (now : Int) : ∀ l, relevantPass now false l = l := by
  intro l
  induction l with
  | nil => rfl
  | cons r rest ih => simp [relevantPass, ih]

/-- With `prune = true` the second pass is take-until-inclusive: the
longest prefix of records not strictly before `now`, plus the first
strictly-past record when one exists. -/
theorem relevantPass_true_eq (now : Int) : ∀ l, relevantPass now true l
    = l.takeWhile (fun r => decide (now ≤ r.effectiveOn))
      ++ (l.dropWhile (fun r => decide (now ≤ r.effectiveOn))).take 1 := by
  intro l
  induction l with
  | nil => rfl
  | cons r rest ih =>
    by_cases hc : r.effectiveOn < now
    · have hp : ¬ now ≤ r.effectiveOn := not_le.mpr hc
      simp [relevantPass, hc, List.takeWhile_cons, List.dropWhile_cons, hp]
    · have hp : now ≤ r.effectiveOn := not_lt.mp hc
      simp [relevantPass, hc, List.takeWhile_cons, List.dropWhile_cons, hp, ih]

/-- On a newest-first (descending `effectiveOn`) list, the records not
strictly before `now` form a prefix, so `takeWhile` equals `filter`. -/
theorem takeWhile_eq_filter_ge (now : Int) : ∀ l : List BundleRecord,
    l.Pairwise (fun x y => y.effectiveOn ≤ x.effectiveOn) →
    l.takeWhile (fun r => decide (now ≤ r.effectiveOn))
      = l.filter (fun r => decide (now ≤ r.effectiveOn)) := by
  intro l
  induction l with
  | nil => intro _; rfl
  | cons r rest ih =>
    intro h
    rcases List.pairwise_cons.mp h with ⟨hr, hrest⟩
    by_cases hp : now ≤ r.effectiveOn
    · simp [List.takeWhile_cons, List.filter_cons, hp, ih hrest]
    · have hnil : rest.filter (fun a => decide (now ≤ a.effectiveOn)) = [] := by
        refine List.filter_eq_nil_iff.mpr ?_
        intro a ha
        simp only [decide_eq_true_eq]
        exact fun hcon => hp (le_trans hcon (hr a ha))
      simp [List.takeWhile_cons, List.filter_cons, hp, hnil]

/-- On a newest-first list, `dropWhile` of the not-yet-past records equals
the filter of the strictly-past records. -/
theorem dropWhile_eq_filter_lt (now : Int) : ∀ l : List BundleRecord,
    l.Pairwise (fun x y => y.effectiveOn ≤ x.effectiveOn) →
    l.dropWhile (fun r => decide (now ≤ r.effectiveOn))
      = l.filter (fun r => decide (r.effectiveOn < now)) := by
  intro l
  induction l with
  | nil => intro _; rfl
  | cons r rest ih =>
    intro h
    rcases List.pairwise_cons.mp h with ⟨hr, hrest⟩
    by_cases hp : now ≤ r.effectiveOn
    · have hq : ¬ r.effectiveOn < now := not_lt.mpr hp
      simp [List.dropWhile_cons, List.filter_cons, hp, hq, ih hrest]
    · have hq : r.effectiveOn < now := not_le.mp hp
      have hself : rest.filter (fun a => decide (a.effectiveOn < now)) = rest := by
        refine List.filter_eq_self.mpr ?_
        intro a ha
        simp only [decide_eq_true_eq]
        exact lt_of_le_of_lt (hr a ha) hq
      simp [List.dropWhile_cons, List.filter_cons, hp, hq, hself]

/-- The dedup pass returns a sublist of its input. -/
theorem uniquePass_sublist : ∀ l : List BundleRecord, List.Sublist (uniquePass l) l := by
  intro l
  induction l with
  | nil => exact List.Sublist.refl _
  | cons r rest ih =>
    cases rest with
    | nil => exact List.Sublist.refl _
    | cons previous rest' =>
      by_cases hd : previous.digest = r.digest
      · rw [show uniquePass (r :: previous :: rest') = uniquePass (previous :: rest') from by
          simp [uniquePass, hd]]
        exact ih.trans (List.sublist_cons_self r _)
      · rw [show uniquePass (r :: previous :: rest') = r :: uniquePass (previous :: rest') from by
          simp [uniquePass, hd]]
        exact ih.cons₂ r

/-- C1 (amended): on a list ordered newest-first, `filterRecords` with
`prune = true` retains, after the dedup pass, exactly the records whose
`effective_on` is *not strictly before* `now` together with the single
most recent record whose `effective_on` is *strictly before* `now` —
every record older than that one is dropped.  (The Go guard is
`now.After(effective_on)`, which is false when `effective_on` equals
`now`, so a record effective exactly at `now` does not stop the scan; the
claim's boundary, records "not in the future", is off by that case.)
With `prune = false` every post-dedup record is retained. -/
theorem filterRecords_prune_spec (now : Int) (l : List BundleRecord)
    (h : l.Pairwise fun x y => y.effectiveOn ≤ x.effectiveOn) :
    filterRecords now l true
        = (uniquePass l).filter (fun r => decide (now ≤ r.effectiveOn))
          ++ ((uniquePass l).filter (fun r => decide (r.effectiveOn < now))).take 1
    ∧ filterRecords now l false = uniquePass l := by
  have hu : (uniquePass l).Pairwise (fun x y => y.effectiveOn ≤ x.effectiveOn) :=
    List.Pairwise.sublist (uniquePass_sublist l) h
  constructor
  · unfold filterRecords
    rw [relevantPass_true_eq, takeWhile_eq_filter_ge now _ hu, dropWhile_eq_filter_lt now _ hu]
  · exact relevantPass_false now _

/-- Witness for C1 (amended) at a concrete newest-first list. -/
theorem filterRecords_prune_spec_witness :
    ([⟨"a", 200, "", "", ""⟩, ⟨"b", 50, "", "", ""⟩, ⟨"c", 10, "", "", ""⟩]
        : List BundleRecord).Pairwise (fun x y => y.effectiveOn ≤ x.effectiveOn)
    ∧ (filterRecords 100 [⟨"a", 200, "", "", ""⟩, ⟨"b", 50, "", "", ""⟩, ⟨"c", 10, "", "", ""⟩] true
          = (uniquePass [⟨"a", 200, "", "", ""⟩, ⟨"b", 50, "", "", ""⟩, ⟨"c", 10, "", "", ""⟩]).filter
              (fun r => decide ((100 : Int) ≤ r.effectiveOn))
            ++ ((uniquePass
                  [⟨"a", 200, "", "", ""⟩, ⟨"b", 50, "", "", ""⟩, ⟨"c", 10, "", "", ""⟩]).filter
                (fun r => decide (r.effectiveOn < (100 : Int)))).take 1
        ∧ filterRecords 100 [⟨"a", 200, "", "", ""⟩, ⟨"b", 50, "", "", ""⟩, ⟨"c", 10, "", "", ""⟩]
              false
          = uniquePass [⟨"a", 200, "", "", ""⟩, ⟨"b", 50, "", "", ""⟩, ⟨"c", 10, "", "", ""⟩]) :=
  ⟨by decide,
    filterRecords_prune_spec 100
      [⟨"a", 200, "", "", ""⟩, ⟨"b", 50, "", "", ""⟩, ⟨"c", 10, "", "", ""⟩] (by decide)⟩

/-- C1 counterexample: at `now = 100`, the newest-first list holds a record
effective exactly at `now` (not in the future) and an older strictly-past
record.  The claim permits exactly one retained record that is not in the
future, yet `filterRecords` with `prune = true` retains both: the Go guard
`now.After(effective_on)` is false on the boundary record, so the scan
walks past it. -/
theorem filterRecords_prune_boundary_counterexample :
    filterRecords 100 [⟨"a", 100, "t1", "", ""⟩, ⟨"b", 50, "t2", "", ""⟩] true
        = [⟨"a", 100, "t1", "", ""⟩, ⟨"b", 50, "t2", "", ""⟩]
    ∧ ¬ (100 : Int) < (⟨"a", 100, "t1", "", ""⟩ : BundleRecord).effectiveOn
    ∧ ¬ (100 : Int) < (⟨"b", 50, "t2", "", ""⟩ : BundleRecord).effectiveOn := by
  decide

/-- The prune pass preserves the head of the list. -/
theorem relevantPass_head (now : Int) (prune : Bool) :
    ∀ l : List BundleRecord, (relevantPass now prune l).head? = l.head? := by
  intro l
  cases l with
  | nil => rfl
  | cons r rest =>
    simp only [relevantPass]
    split
    · rfl
    · rfl

/-- The prune pass preserves any adjacency invariant, since it returns a
prefix of its input. -/
theorem chain'_relevantPass (now : Int) (prune : Bool)
    (R : BundleRecord → BundleRecord → Prop) :
    ∀ l, l.Chain' R → (relevantPass now prune l).Chain' R := by
  intro l
  induction l with
  | nil => intro _; exact List.chain'_nil
  | cons r rest ih =>
    intro h
    rcases List.chain'_cons'.mp h with ⟨hr, hrest⟩
    simp only [relevantPass]
    split
    · exact List.chain'_singleton r
    · refine List.chain'_cons'.mpr ⟨?_, ih hrest⟩
      intro y hy
      rw [relevantPass_head now prune rest] at hy
      exact hr y hy

/-- The first survivor of the dedup pass of a non-empty list carries the
digest of the head record (a dropped prefix is a run of equal digests). -/
theorem uniquePass_head_digest :
    ∀ (xs : List BundleRecord) (x : BundleRecord),
      ∃ h t, uniquePass (x :: xs) = h :: t ∧ h.digest = x.digest := by
  intro xs
  induction xs with
  | nil => intro x; exact ⟨x, [], rfl, rfl⟩
  | cons y ys ih =>
    intro x
    by_cases hd : y.digest = x.digest
    · obtain ⟨h, t, heq, hdig⟩ := ih y
      refine ⟨h, t, ?_, hdig.trans hd⟩
      simpa [uniquePass, hd] using heq
    · exact ⟨x, uniquePass (y :: ys), by simp [uniquePass, hd], rfl⟩

/-- The dedup pass leaves no two adjacent records with equal digests. -/
theorem chain'_uniquePass :
    ∀ l : List BundleRecord, (uniquePass l).Chain' (fun a b => a.digest ≠ b.digest) := by
  intro l
  induction l with
  | nil => exact List.chain'_nil
  | cons r rest ih =>
    cases rest with
    | nil => exact List.chain'_singleton r
    | cons previous rest' =>
      by_cases hd : previous.digest = r.digest
      · rw [show uniquePass (r :: previous :: rest') = uniquePass (previous :: rest') from by
          simp [uniquePass, hd]]
        exact ih
      · rw [show uniquePass (r :: previous :: rest') = r :: uniquePass (previous :: rest') from by
          simp [uniquePass, hd]]
        refine List.chain'_cons'.mpr ⟨?_, ih⟩
        intro y hy
        obtain ⟨hh, t, heq, hdig⟩ := uniquePass_head_digest rest' previous
        rw [heq] at hy
        obtain rfl : hh = y := by simpa using hy
        rw [hdig]
        exact fun hc => hd hc.symm

/-- A list with no adjacent equal digests passes the dedup unchanged. -/
theorem uniquePass_eq_self_of_chain' :
    ∀ l : List BundleRecord,
      l.Chain' (fun a b => a.digest ≠ b.digest) → uniquePass l = l := by
  intro l
  induction l with
  | nil => intro _; rfl
  | cons r rest ih =>
    cases rest with
    | nil => intro _; rfl
    | cons previous rest' =>
      intro h
      rcases List.chain'_cons.mp h with ⟨hrp, htail⟩
      have hd : ¬ previous.digest = r.digest := fun hc => hrp hc.symm
      simp [uniquePass, hd, ih htail]

/-- C3 (amended): for every input and both prune values, the list returned
by `filterRecords` has no two adjacent records sharing a digest; and the
dedup pass collapses only *adjacent* duplicates — an input with no two
adjacent equal-digest records (in particular, one whose duplicates are all
non-adjacent) comes back unchanged when `prune = false`.  (With
`prune = true` the prune step may additionally drop records past the
first strictly-past one, including non-adjacent duplicates, so "both
remain in the output" holds only for `prune = false`.) -/
theorem filterRecords_adjacent_digests (now : Int) (l : List BundleRecord) (prune : Bool) :
    (filterRecords now l prune).Chain' (fun a b => a.digest ≠ b.digest)
    ∧ (l.Chain' (fun a b => a.digest ≠ b.digest) → filterRecords now l false = l) := by
  constructor
  · exact chain'_relevantPass now prune _ _ (chain'_uniquePass l)
  · intro h
    unfold filterRecords
    rw [uniquePass_eq_self_of_chain' l h, relevantPass_false]

/-- Witness for C3 at a concrete list with a non-adjacent duplicate. -/
theorem filterRecords_adjacent_digests_witness :
    ([⟨"a", 200, "t1", "", ""⟩, ⟨"b", 50, "t2", "", ""⟩, ⟨"a", 10, "t3", "", ""⟩]
        : List BundleRecord).Chain' (fun a b => a.digest ≠ b.digest)
    ∧ ((filterRecords 0 [⟨"a", 200, "t1", "", ""⟩, ⟨"b", 50, "t2", "", ""⟩, ⟨"a", 10, "t3", "", ""⟩]
          false).Chain' (fun a b => a.digest ≠ b.digest)
        ∧ filterRecords 0
            [⟨"a", 200, "t1", "", ""⟩, ⟨"b", 50, "t2", "", ""⟩, ⟨"a", 10, "t3", "", ""⟩] false
          = [⟨"a", 200, "t1", "", ""⟩, ⟨"b", 50, "t2", "", ""⟩, ⟨"a", 10, "t3", "", ""⟩]) :=
  ⟨by simp [List.chain'_cons],
    (filterRecords_adjacent_digests 0
      [⟨"a", 200, "t1", "", ""⟩, ⟨"b", 50, "t2", "", ""⟩, ⟨"a", 10, "t3", "", ""⟩] false).1,
    (filterRecords_adjacent_digests 0
      [⟨"a", 200, "t1", "", ""⟩, ⟨"b", 50, "t2", "", ""⟩, ⟨"a", 10, "t3", "", ""⟩] false).2
      (by simp [List.chain'_cons])⟩

/-- C3 counterexample: with `prune = true`, the non-adjacent duplicate of
digest `a` (tag `t3`) is dropped by the prune step, so it does not remain
in the output, contrary to the claim's "both remain in the output". -/
theorem filterRecords_nonadjacent_counterexample :
    filterRecords 100
        [⟨"a", 200, "t1", "", ""⟩, ⟨"b", 50, "t2", "", ""⟩, ⟨"a", 10, "t3", "", ""⟩] true
      = [⟨"a", 200, "t1", "", ""⟩, ⟨"b", 50, "t2", "", ""⟩]
    ∧ (⟨"a", 10, "t3", "", ""⟩ : BundleRecord).digest
        = (⟨"a", 200, "t1", "", ""⟩ : BundleRecord).digest
    ∧ ¬ (⟨"a", 10, "t3", "", ""⟩ : BundleRecord)
        ∈ filterRecords 100
            [⟨"a", 200, "t1", "", ""⟩, ⟨"b", 50, "t2", "", ""⟩, ⟨"a", 10, "t3", "", ""⟩] true := by
  decide

/-- C4 (amended): `effectiveOn` returns the current time plus 30 days
rounded to the *nearest* midnight UTC — half a day or more rounds *up*,
per Go's `Time.Round` — so the result is a whole multiple of a day
(hours, minutes, seconds and nanoseconds all zero) within half a day of
`now + 30 days`, and every record `Track` adds carries an `effective_on`
at midnight UTC roughly 30 days ahead. -/
theorem effectiveOn_nearest_midnight (now : Int) :
    effectiveOn now % nsPerDay = 0
    ∧ now + 30 * nsPerDay - nsPerDay / 2 < effectiveOn now
    ∧ effectiveOn now ≤ now + 30 * nsPerDay + nsPerDay / 2 := by
  unfold effectiveOn timeRound nsPerDay
  by_cases hc : (now + 30 * 86400000000000) % 86400000000000
      + (now + 30 * 86400000000000) % 86400000000000 < 86400000000000
  · rw [if_pos hc]
    omega
  · rw [if_neg hc]
    omega

/-- C4 counterexample: at 13:00 UTC, `now + 30 days` lies past midday, so
Go's `Round` carries it *up* to the 31st midnight, whereas the claim's
"rounded down to midnight" predicts the 30th midnight. -/
theorem effectiveOn_round_down_counterexample :
    effectiveOn (13 * 3600 * 1000000000) = 31 * nsPerDay
    ∧ effectiveOnSpecRoundDown (13 * 3600 * 1000000000) = 30 * nsPerDay
    ∧ (31 * nsPerDay : Int) ≠ 30 * nsPerDay := by
  refine ⟨by decide, by decide, by decide⟩

/-- A sorted-by-keys list whose keys are duplicate-free is strictly
sorted by keys. -/
theorem sorted_keyLT_of_nodup (m : List (String × List BundleRecord))
    (hs : m.Sorted keyLE) (hn : (m.map Prod.fst).Nodup) : m.Sorted keyLT := by
  have hne : m.Pairwise (fun a b => a.1 ≠ b.1) := List.pairwise_map.mp hn
  exact (hs.and hne).imp fun h => lt_of_le_of_ne h.1 h.2

/-- Sorting by key is invariant under permutation of a duplicate-free-key
association list: the logical map determines the sorted entry list. -/
theorem insertionSort_eq_of_perm (m₁ m₂ : List (String × List BundleRecord))
    (hp : m₁.Perm m₂) (hn : (m₁.map Prod.fst).Nodup) :
    List.insertionSort keyLE m₁ = List.insertionSort keyLE m₂ := by
  have hperm : (List.insertionSort keyLE m₁).Perm (List.insertionSort keyLE m₂) :=
    (List.perm_insertionSort keyLE m₁).trans (hp.trans (List.perm_insertionSort keyLE m₂).symm)
  have hn₁ : ((List.insertionSort keyLE m₁).map Prod.fst).Nodup :=
    (((List.perm_insertionSort keyLE m₁).map Prod.fst).nodup_iff).mpr hn
  have hn₂ : ((List.insertionSort keyLE m₂).map Prod.fst).Nodup :=
    (((List.perm_insertionSort keyLE m₂).map Prod.fst).nodup_iff).mpr
      ((hp.map Prod.fst).nodup_iff.mp hn)
  exact List.eq_of_perm_of_sorted hperm
    (sorted_keyLT_of_nodup _ (List.sorted_insertionSort keyLE m₁) hn₁)
    (sorted_keyLT_of_nodup _ (List.sorted_insertionSort keyLE m₂) hn₂)

/-- One collection serializes identically from any representation of the
same logical map. -/
theorem collectionYaml_perm (m₁ m₂ : List (String × List BundleRecord))
    (hp : m₁.Perm m₂) (hn : (m₁.map Prod.fst).Nodup) :
    collectionYaml m₁ = collectionYaml m₂ := by
  unfold collectionYaml
  rw [insertionSort_eq_of_perm m₁ m₂ hp hn]

/-- C9: `Output` is deterministic over the logical Tracker state: two
trackers whose collections are the same repository→records maps (i.e.
permutations of duplicate-free-key association lists, the model of Go's
unordered maps) serialize to byte-identical YAML, because the formatter
emits keys in sorted order. -/
theorem trackerOutput_deterministic (t₁ t₂ : Tracker)
    (hp : t₁.pipelineBundles.Perm t₂.pipelineBundles)
    (ht : t₁.taskBundles.Perm t₂.taskBundles)
    (hnp : (t₁.pipelineBundles.map Prod.fst).Nodup)
    (hnt : (t₁.taskBundles.map Prod.fst).Nodup) :
    t₁.Output = t₂.Output := by
  unfold Tracker.Output
  rw [collectionYaml_perm _ _ hp hnp, collectionYaml_perm _ _ ht hnt]

/-- Witness for C9: two enumeration orders of the same two-repository
pipeline map serialize identically. -/
theorem trackerOutput_deterministic_witness :
    ((⟨[("a", []), ("b", [⟨"x", 0, "t", "", ""⟩])], [("c", [])]⟩ : Tracker).pipelineBundles).Perm
        ((⟨[("b", [⟨"x", 0, "t", "", ""⟩]), ("a", [])], [("c", [])]⟩ : Tracker).pipelineBundles)
    ∧ (((⟨[("a", []), ("b", [⟨"x", 0, "t", "", ""⟩])], [("c", [])]⟩
          : Tracker).pipelineBundles).map Prod.fst).Nodup
    ∧ (⟨[("a", []), ("b", [⟨"x", 0, "t", "", ""⟩])], [("c", [])]⟩ : Tracker).Output
        = (⟨[("b", [⟨"x", 0, "t", "", ""⟩]), ("a", [])], [("c", [])]⟩ : Tracker).Output :=
  ⟨List.Perm.swap ("b", [(⟨"x", 0, "t", "", ""⟩ : BundleRecord)]) ("a", []) [],
    by decide,
    trackerOutput_deterministic
      ⟨[("a", []), ("b", [⟨"x", 0, "t", "", ""⟩])], [("c", [])]⟩
      ⟨[("b", [⟨"x", 0, "t", "", ""⟩]), ("a", [])], [("c", [])]⟩
      (List.Perm.swap ("b", [(⟨"x", 0, "t", "", ""⟩ : BundleRecord)]) ("a", []) [])
      (List.Perm.refl _) (by decide) (by decide)⟩
